import Mathlib

/-!
Verification of the wpt-sync Try-Push subsystem and event handlers.

The definitions below are a shallow embedding of `src/sync/trypush.py` and
`src/sync/handlers.py`.  Pure data is embedded as Lean structures; the
stateful record mutations become explicit state-passing functions; Python
exceptions become `Except` results.  External collaborators (taskcluster,
git, the defect tracker, the filesystem) are passed in as explicit function
parameters so that every definition stays executable.
-/

/-! ## Generic string helpers (Python `needle in haystack`) -/

/-- The Python substring test `needle in hay`, scanning every start
position of the haystack for the needle as a prefix. -/
def subSearch (needle : List Char) : List Char → Bool
  | [] => needle.isEmpty
  | c :: rest => needle.isPrefixOf (c :: rest) || subSearch needle rest

/-- String-level substring containment, `strContains hay needle`. -/
def strContains (hay needle : String) : Bool :=
  subSearch needle.toList hay.toList

/-- Concatenation of a list of lists (iteration over all values of
`tests_by_type`). -/
def concatAll : List (List String) → List String
  | [] => []
  | l :: ls => l ++ concatAll ls

/-! ## Secondary indices

The index implementation lives in `index.py`, which is not part of the
provided sources; only its callers are.  It is therefore modelled from the
specification. -/

/-- Modelled from the spec: `index.py` (classes `TryCommitIndex` and
`TaskGroupIndex`) is missing from the sources.  Per the spec an index maps
opaque keys (commit hashes, task-group identifiers) to Try-Push process
names, supporting get/insert/delete; per the spec's design notes deletion
is by the tuple `(key, value)`, the correct value being the process-name,
so a delete only removes the mapping when the stored value matches the
value passed. -/
structure Index where
  entries : List (String × String)
deriving DecidableEq, Repr

/-- Lookup of a key in an association list of index entries. -/
def assocGet : List (String × String) → String → Option String
  | [], _ => none
  | (a, b) :: t, k => if k = a then some b else assocGet t k

/-- Removal of every entry of a key from an association list. -/
def assocRemove : List (String × String) → String → List (String × String)
  | [], _ => []
  | (a, b) :: t, k => if a = k then assocRemove t k else (a, b) :: assocRemove t k

/-- Modelled from the spec: key lookup in a secondary index. -/
def Index.get (idx : Index) (k : String) : Option String :=
  assocGet idx.entries k

/-- Modelled from the spec: insert a `(key, value)` mapping, replacing any
previous mapping of the key. -/
def Index.insert (idx : Index) (k v : String) : Index :=
  ⟨(k, v) :: assocRemove idx.entries k⟩

/-- Modelled from the spec: delete by the tuple `(key, value)` — the
mapping is removed only when the stored value equals `v`. -/
def Index.delete (idx : Index) (k v : String) : Index :=
  if idx.get k = some v then ⟨assocRemove idx.entries k⟩ else idx

/-- Modelled from the spec: indices are keyed directly by the opaque
commit hash / task-group identifier. -/
def Index.make_key (s : String) : String := s

/-! ## The Try-Push record (`TryPush` in trypush.py)

The underlying `ProcessData` dictionary is embedded as a structure of
optional fields (`self.get(k)` returns `None` for absent keys).  A
Try-Push's world also contains the two secondary indices touched by its
setters. -/

/-- The persisted payload of a Try-Push record (`self._data`). -/
structure TryPushData where
  try_rev : Option String
  taskgroup_id : Option String
  status : Option String
  infra_fail : Option Bool
  accept_failures : Option Bool
  created : Option String
deriving DecidableEq, Repr

/-- A Try-Push record together with the shared secondary indices its
mutations touch. -/
structure TryPushState where
  process_name : String
  data : TryPushData
  try_commit_index : Index
  task_group_index : Index
deriving DecidableEq, Repr

/-- `TryPush.statuses`. -/
def statuses : List String := ["open", "complete", "infra-fail"]

/-- `TryPush.status_transitions`. -/
def status_transitions : List (String × String) :=
  [("open", "complete"),
   ("complete", "open"),
   ("infra-fail", "complete")]

/-- Membership of `(current, value)` in the transition table; a `None`
current status never belongs to the table of string pairs. -/
def statusTransMem : Option String → String → Bool
  | some c, v => decide ((c, v) ∈ status_transitions)
  | none, _ => false

/-- Rendering of an optional string the way Python's `"%s"` renders it. -/
def optionStr : Option String → String
  | some s => s
  | none => "None"

namespace TryPush

/-- The `status` setter: reject unrecognised values, silently return when
the value equals the current status, reject undeclared transitions, and
otherwise store the new status. -/
def set_status (s : TryPushState) (value : String) : Except String TryPushState :=
  if value ∈ statuses then
    if s.data.status = some value then
      Except.ok s
    else if statusTransMem s.data.status value then
      Except.ok { s with data := { s.data with status := some value } }
    else
      Except.error ("Tried to change status from " ++ optionStr s.data.status ++ " to " ++ value)
  else
    Except.error ("Unrecognised status " ++ value)

/-- The `try_rev` setter: delete the old key from the try-commit index
when present, store the new value, and insert the key of the freshly
stored value. -/
def set_try_rev (s : TryPushState) (value : String) : TryPushState :=
  let idx := s.try_commit_index
  let idx := match s.data.try_rev with
    | some old => idx.delete (Index.make_key old) s.process_name
    | none => idx
  let data := { s.data with try_rev := some value }
  let idx := idx.insert (Index.make_key value) s.process_name
  { s with data := data, try_commit_index := idx }

/-- The `taskgroup_id` setter: store the value and, when it is truthy,
insert its key into the task-group index.  Note that no old key is ever
deleted here. -/
def set_taskgroup_id (s : TryPushState) (value : String) : TryPushState :=
  let data := { s.data with taskgroup_id := some value }
  let idx :=
    if value ≠ "" then
      s.task_group_index.insert (Index.make_key value) s.process_name
    else
      s.task_group_index
  { s with data := data, task_group_index := idx }

/-- The `infra_fail` setter: no-op when the value equals the stored flag,
otherwise store it; on a rising edge (storing `true`) the failed builds
are reported (the returned boolean records that `notify_failed_builds`
ran). -/
def set_infra_fail (s : TryPushState) (value : Bool) : TryPushState × Bool :=
  if s.data.infra_fail = some value then
    (s, false)
  else
    ({ s with data := { s.data with infra_fail := some value } }, value)

/-- Assignment through the `status` setter; a raised value error
propagates in Python, so the state is only replaced on success. -/
def run_set_status (s : TryPushState) (v : String) : TryPushState :=
  match set_status s v with
  | Except.ok s' => s'
  | Except.error _ => s

/-- The `infra_fail` getter, which is not pure: when the status is
`infra-fail` it moves the status to `complete` through the status setter
(a declared transition) and re-sets the sticky flag, then returns
`self.get("infra-fail", False)`. -/
def infra_fail_get (s : TryPushState) : TryPushState × Bool :=
  if s.data.status = some "infra-fail" then
    let s2 := (set_infra_fail (run_set_status s "complete") true).1
    (s2, s2.data.infra_fail.getD false)
  else
    (s, s.data.infra_fail.getD false)

/-- `TryPush.delete`: remove the underlying record, then purge the two
indices — the source passes the indexed data value, not the process-name,
as the value argument of each index delete. -/
def delete (s : TryPushState) : TryPushState :=
  let s := match s.data.taskgroup_id with
    | some tg => { s with task_group_index := s.task_group_index.delete (Index.make_key tg) tg }
    | none => s
  match s.data.try_rev with
  | some rev => { s with try_commit_index := s.try_commit_index.delete (Index.make_key rev) rev }
  | none => s

end TryPush

/-! ## Claim C1 and C10: the status setter -/

/-- A Try-Push whose status is `open`, with empty indices. -/
def tpOpen : TryPushState :=
  ⟨"try/downstream/12/0", ⟨none, none, some "open", none, none, none⟩, ⟨[]⟩, ⟨[]⟩⟩

/-- C1 counterexample: `open` is a recognised status and `(open, open)` is
not a declared transition, yet setting the status of an open Try-Push to
`open` does not raise a value error — it succeeds and leaves the record
unchanged, contradicting the claim that every recognised value forming an
undeclared `(current, new)` pair is rejected. -/
theorem C1_counterexample :
    "open" ∈ statuses
    ∧ ("open", "open") ∉ status_transitions
    ∧ TryPush.set_status tpOpen "open" = Except.ok tpOpen := by
  refine ⟨by decide, by decide, rfl⟩

/-- C1 (amended): setting `status` to an unrecognised value raises a value
error; setting it to a recognised value equal to the current status
silently succeeds without change; setting it to a recognised value
different from the current status along an undeclared `(current, new)`
pair raises a value error; and setting it along a declared transition
updates the stored status to the new value. -/
theorem C1_amended_thm (s : TryPushState) (v : String) :
    (v ∉ statuses →
      TryPush.set_status s v = Except.error ("Unrecognised status " ++ v))
    ∧ (v ∈ statuses → s.data.status = some v → TryPush.set_status s v = Except.ok s)
    ∧ (v ∈ statuses → s.data.status ≠ some v → statusTransMem s.data.status v = false →
      TryPush.set_status s v =
        Except.error ("Tried to change status from " ++ optionStr s.data.status ++ " to " ++ v))
    ∧ (∀ c, s.data.status = some c → (c, v) ∈ status_transitions →
      TryPush.set_status s v = Except.ok { s with data := { s.data with status := some v } }
        ∧ v ∈ statuses ∧ c ≠ v) := by
  refine ⟨?_, ?_, ?_, ?_⟩
  · intro hv
    simp [TryPush.set_status, hv]
  · intro hv hcur
    simp [TryPush.set_status, hv, hcur]
  · intro hv hne htr
    simp [TryPush.set_status, hv, hne, htr]
  · intro c hc htr
    have htr' : (c = "open" ∧ v = "complete") ∨ (c = "complete" ∧ v = "open")
        ∨ (c = "infra-fail" ∧ v = "complete") := by
      simpa [status_transitions, Prod.ext_iff] using htr
    have hv : v ∈ statuses := by
      rcases htr' with ⟨h1, h2⟩ | ⟨h1, h2⟩ | ⟨h1, h2⟩ <;> (subst h2; decide)
    have hcv : c ≠ v := by
      rcases htr' with ⟨h1, h2⟩ | ⟨h1, h2⟩ | ⟨h1, h2⟩ <;> (subst h1; subst h2; decide)
    have hne : s.data.status ≠ some v := by
      rw [hc]
      intro h
      exact hcv (Option.some.inj h)
    have hmem : statusTransMem s.data.status v = true := by
      rw [hc]
      simp [statusTransMem, htr]
    refine ⟨?_, hv, hcv⟩
    simp [TryPush.set_status, hv, hne, hmem]

/-- C1 amended witness: concrete instances of each clause at the open
Try-Push. -/
theorem C1_amended_witness :
    TryPush.set_status tpOpen "bogus" = Except.error ("Unrecognised status bogus")
    ∧ (TryPush.set_status tpOpen "complete"
        = Except.ok { tpOpen with data := { tpOpen.data with status := some "complete" } }) := by
  refine ⟨(C1_amended_thm tpOpen "bogus").1 (by decide), ?_⟩
  exact ((C1_amended_thm tpOpen "complete").2.2.2 "open" rfl (by decide)).1

/-- C10: setting `status` to the value it currently holds succeeds without
raising and leaves the whole record (data and indices) unchanged, even
though no such edge appears in the transition table. -/
theorem C10_thm (s : TryPushState) (v : String)
    (hcur : s.data.status = some v) (hv : v ∈ statuses) :
    TryPush.set_status s v = Except.ok s := by
  simp [TryPush.set_status, hv, hcur]

/-- C10 witness: re-setting the `open` status of an open Try-Push is a
no-op. -/
theorem C10_witness :
    TryPush.set_status tpOpen "open" = Except.ok tpOpen :=
  C10_thm tpOpen "open" rfl (by decide)

/-! ## Index lemmas -/

theorem assocGet_remove_self (k : String) :
    ∀ l : List (String × String), assocGet (assocRemove l k) k = none := by
  intro l
  induction l with
  | nil => rfl
  | cons p t ih =>
    obtain ⟨a, b⟩ := p
    by_cases h : a = k
    · simp [assocRemove, h, ih]
    · simp [assocRemove, assocGet, h, Ne.symm h, ih]

theorem assocGet_remove_ne (k k' : String) (hne : k' ≠ k) :
    ∀ l : List (String × String), assocGet (assocRemove l k) k' = assocGet l k' := by
  intro l
  induction l with
  | nil => rfl
  | cons p t ih =>
    obtain ⟨a, b⟩ := p
    by_cases h : a = k
    · subst h
      simp [assocRemove, assocGet, hne, ih]
    · simp [assocRemove, assocGet, h, ih]

theorem Index.get_insert_self (idx : Index) (k v : String) :
    (idx.insert k v).get k = some v := by
  simp [Index.insert, Index.get, assocGet]

theorem Index.get_insert_ne (idx : Index) (k v k' : String) (h : k' ≠ k) :
    (idx.insert k v).get k' = idx.get k' := by
  simp [Index.insert, Index.get, assocGet, h, assocGet_remove_ne k k' h]

theorem Index.get_delete_self (idx : Index) (k v : String) (h : idx.get k = some v) :
    (idx.delete k v).get k = none := by
  have h' : assocGet idx.entries k = some v := h
  simp [Index.delete, Index.get, h', assocGet_remove_self]

/-! ## Claim C2: index maintenance in the `try_rev` / `taskgroup_id` setters -/

/-- A Try-Push holding taskgroup-id `tg1`, which the task-group index maps
to its process-name. -/
def tpTg : TryPushState :=
  ⟨"try/downstream/12/0", ⟨none, some "tg1", some "open", none, none, none⟩,
   ⟨[]⟩, ⟨[("tg1", "try/downstream/12/0")]⟩⟩

/-- C2 counterexample: the `taskgroup_id` setter does not delete the old
key.  Starting from a record whose taskgroup-id `tg1` is indexed, setting
the taskgroup-id to `tg2` leaves the stale key `tg1` still mapping to the
record's process-name, contradicting the claim that the old key is deleted
and no stale value remains. -/
theorem C2_counterexample :
    tpTg.data.taskgroup_id = some "tg1"
    ∧ ("tg1" : String) ≠ "tg2"
    ∧ (TryPush.set_taskgroup_id tpTg "tg2").data.taskgroup_id = some "tg2"
    ∧ (TryPush.set_taskgroup_id tpTg "tg2").task_group_index.get
        (Index.make_key "tg1") = some "try/downstream/12/0" := by
  refine ⟨rfl, by decide, rfl, rfl⟩

/-- C2 (amended): setting `try-rev` deletes the old key from
TryCommitIndex when one was present (removing it whenever it mapped to
this record's process-name) and inserts the new key mapped to the
process-name; setting `taskgroup-id` only inserts the new key into
TaskGroupIndex when the value is non-empty and never deletes the old key,
so the rest of the task-group index — including a stale old key — is left
unchanged. -/
theorem C2_amended_thm (s : TryPushState) (v : String) :
    ((TryPush.set_try_rev s v).data.try_rev = some v
      ∧ (TryPush.set_try_rev s v).try_commit_index.get (Index.make_key v)
          = some s.process_name
      ∧ ∀ old, s.data.try_rev = some old → Index.make_key old ≠ Index.make_key v →
          s.try_commit_index.get (Index.make_key old) = some s.process_name →
          (TryPush.set_try_rev s v).try_commit_index.get (Index.make_key old) = none)
    ∧ (v ≠ "" →
      (TryPush.set_taskgroup_id s v).data.taskgroup_id = some v
      ∧ (TryPush.set_taskgroup_id s v).task_group_index.get (Index.make_key v)
          = some s.process_name
      ∧ ∀ k, k ≠ Index.make_key v →
          (TryPush.set_taskgroup_id s v).task_group_index.get k
            = s.task_group_index.get k) := by
  refine ⟨⟨rfl, ?_, ?_⟩, ?_⟩
  · show (Index.insert _ (Index.make_key v) s.process_name).get (Index.make_key v)
      = some s.process_name
    exact Index.get_insert_self _ _ _
  · intro old hold hne hmap
    have hidx : (TryPush.set_try_rev s v).try_commit_index
        = ((s.try_commit_index.delete (Index.make_key old) s.process_name).insert
            (Index.make_key v) s.process_name) := by
      simp [TryPush.set_try_rev, hold]
    rw [hidx, Index.get_insert_ne _ _ _ _ hne, Index.get_delete_self _ _ _ hmap]
  · intro hv
    refine ⟨rfl, ?_, ?_⟩
    · have hidx : (TryPush.set_taskgroup_id s v).task_group_index
          = s.task_group_index.insert (Index.make_key v) s.process_name := by
        simp [TryPush.set_taskgroup_id, hv]
      rw [hidx, Index.get_insert_self]
    · intro k hk
      have hidx : (TryPush.set_taskgroup_id s v).task_group_index
          = s.task_group_index.insert (Index.make_key v) s.process_name := by
        simp [TryPush.set_taskgroup_id, hv]
      rw [hidx, Index.get_insert_ne _ _ _ _ hk]

/-- A Try-Push holding try-rev `oldrev`, indexed to its process-name. -/
def tpRev : TryPushState :=
  ⟨"try/downstream/12/0", ⟨some "oldrev", none, some "open", none, none, none⟩,
   ⟨[("oldrev", "try/downstream/12/0")]⟩, ⟨[]⟩⟩

/-- C2 amended witness: after re-targeting the try-rev the old key is
gone, and after setting a fresh taskgroup-id its key resolves to the
process-name. -/
theorem C2_amended_witness :
    (TryPush.set_try_rev tpRev "newrev").try_commit_index.get
        (Index.make_key "oldrev") = none
    ∧ (TryPush.set_taskgroup_id tpRev "tg9").task_group_index.get
        (Index.make_key "tg9") = some "try/downstream/12/0" := by
  constructor
  · exact (C2_amended_thm tpRev "newrev").1.2.2 "oldrev" rfl (by decide) rfl
  · exact ((C2_amended_thm tpRev "tg9").2 (by decide)).2.1

/-! ## Claim C3: stickiness of the `infra-fail` flag -/

/-- The mutating operations available on a Try-Push during its lifetime,
together with the impure `infra_fail` read. -/
inductive TpOp
  | set_status (v : String)
  | set_try_rev (v : String)
  | set_taskgroup_id (v : String)
  | set_infra_fail (b : Bool)
  | set_accept_failures (b : Bool)
  | set_created (v : String)
  | read_infra_fail
deriving DecidableEq, Repr

/-- Application of one operation to a Try-Push; a setter that raises
leaves the state unchanged (the exception propagates before any
mutation). -/
def TpOp.apply (s : TryPushState) : TpOp → TryPushState
  | TpOp.set_status v => TryPush.run_set_status s v
  | TpOp.set_try_rev v => TryPush.set_try_rev s v
  | TpOp.set_taskgroup_id v => TryPush.set_taskgroup_id s v
  | TpOp.set_infra_fail b => (TryPush.set_infra_fail s b).1
  | TpOp.set_accept_failures b =>
      { s with data := { s.data with accept_failures := some b } }
  | TpOp.set_created v => { s with data := { s.data with created := some v } }
  | TpOp.read_infra_fail => (TryPush.infra_fail_get s).1

/-- Sequencing of operations on a Try-Push. -/
def runOps (s : TryPushState) : List TpOp → TryPushState
  | [] => s
  | op :: ops => runOps (TpOp.apply s op) ops

theorem set_status_preserves_infra_fail (s : TryPushState) (v : String)
    (s' : TryPushState) (h : TryPush.set_status s v = Except.ok s') :
    s'.data.infra_fail = s.data.infra_fail := by
  unfold TryPush.set_status at h
  split at h
  · split at h
    · injection h with h
      subst h
      rfl
    · split at h
      · injection h with h
        subst h
        rfl
      · exact Except.noConfusion h
  · exact Except.noConfusion h

theorem run_set_status_infra_fail (s : TryPushState) (v : String) :
    (TryPush.run_set_status s v).data.infra_fail = s.data.infra_fail := by
  unfold TryPush.run_set_status
  cases h : TryPush.set_status s v with
  | ok s' => exact set_status_preserves_infra_fail s v s' h
  | error e => rfl

theorem infra_fail_get_of_true (s : TryPushState)
    (hs : s.data.infra_fail = some true) :
    (TryPush.infra_fail_get s).1.data.infra_fail = some true
    ∧ (TryPush.infra_fail_get s).2 = true := by
  unfold TryPush.infra_fail_get
  split
  · have h1 : (TryPush.run_set_status s "complete").data.infra_fail = some true := by
      rw [run_set_status_infra_fail]
      exact hs
    constructor <;> simp [TryPush.set_infra_fail, h1]
  · constructor <;> simp [hs]

theorem apply_preserves_infra_fail (s : TryPushState) (op : TpOp)
    (hs : s.data.infra_fail = some true) (hop : op ≠ TpOp.set_infra_fail false) :
    (TpOp.apply s op).data.infra_fail = some true := by
  cases op with
  | set_status v =>
    show (TryPush.run_set_status s v).data.infra_fail = some true
    rw [run_set_status_infra_fail]
    exact hs
  | set_try_rev v => exact hs
  | set_taskgroup_id v => exact hs
  | set_infra_fail b =>
    cases b with
    | false => exact absurd rfl hop
    | true =>
      show (TryPush.set_infra_fail s true).1.data.infra_fail = some true
      simp [TryPush.set_infra_fail, hs]
  | set_accept_failures b => exact hs
  | set_created v => exact hs
  | read_infra_fail =>
    exact (infra_fail_get_of_true s hs).1

/-- A Try-Push with the infra-fail flag set, status `complete`. -/
def tpInfra : TryPushState :=
  ⟨"try/downstream/12/0", ⟨none, none, some "complete", some true, none, none⟩,
   ⟨[]⟩, ⟨[]⟩⟩

/-- C3 counterexample: the flag is not sticky against the setter.  A
Try-Push whose infra-fail flag is true, after the single setter call
`infra_fail = False`, observes the flag as false — contradicting the claim
that once true every later observation within the lifetime (after any
sequence of setter calls) still yields true. -/
theorem C3_counterexample :
    tpInfra.data.infra_fail = some true
    ∧ (TryPush.infra_fail_get ((TryPush.set_infra_fail tpInfra false).1)).2 = false := by
  exact ⟨rfl, rfl⟩

/-- C3 (amended): the `infra-fail` flag is sticky against every operation
except an explicit clear: once true, it stays true and every observation
yields true after any sequence of status changes, field mutations and
reads, provided the sequence contains no `infra_fail = False` setter call
(which the setter accepts and which clears the flag). -/
theorem C3_amended_thm (s : TryPushState) (ops : List TpOp)
    (hs : s.data.infra_fail = some true)
    (hops : TpOp.set_infra_fail false ∉ ops) :
    (runOps s ops).data.infra_fail = some true
    ∧ (TryPush.infra_fail_get (runOps s ops)).2 = true := by
  induction ops generalizing s with
  | nil =>
    exact ⟨hs, (infra_fail_get_of_true s hs).2⟩
  | cons op ops ih =>
    have hsplit : ¬(TpOp.set_infra_fail false = op ∨ TpOp.set_infra_fail false ∈ ops) := by
      simpa [List.mem_cons] using hops
    have hop : op ≠ TpOp.set_infra_fail false :=
      fun h => hsplit (Or.inl h.symm)
    have hops' : TpOp.set_infra_fail false ∉ ops :=
      fun h => hsplit (Or.inr h)
    exact ih (TpOp.apply s op) (apply_preserves_infra_fail s op hs hop) hops'

/-- A sequence of operations that never clears the flag. -/
def opsKeep : List TpOp :=
  [TpOp.set_status "open", TpOp.set_infra_fail true, TpOp.read_infra_fail,
   TpOp.set_try_rev "r1", TpOp.set_taskgroup_id "t1",
   TpOp.set_accept_failures true, TpOp.set_created "2019-01-01"]

/-- C3 amended witness: the flag survives a concrete mixed sequence of
operations. -/
theorem C3_amended_witness :
    (runOps tpInfra opsKeep).data.infra_fail = some true
    ∧ (TryPush.infra_fail_get (runOps tpInfra opsKeep)).2 = true :=
  C3_amended_thm tpInfra opsKeep rfl (by decide)

/-! ## Claim C4: `delete()` and the indices -/

/-- The 40-hex try revision used in the examples. -/
def rev40 : String := "0123456789abcdef0123456789abcdef01234567"

/-- A Try-Push holding both a try-rev and a taskgroup-id, each indexed to
its process-name as the invariants require. -/
def tpFull : TryPushState :=
  ⟨"try/downstream/12/0",
   ⟨some rev40, some "taskgroup0", some "complete", none, none, none⟩,
   ⟨[(rev40, "try/downstream/12/0")]⟩,
   ⟨[("taskgroup0", "try/downstream/12/0")]⟩⟩

/-- C4: evaluation of `delete()` at the failing input.  Because the source
passes the indexed data value instead of the process-name as the value
argument of each index delete, the tuple-checked delete removes nothing:
after `delete()` both indices still contain keys resolving to the
record's process-name, contradicting the claimed purge. -/
theorem C4_code_bug_eval :
    tpFull.try_commit_index.get (Index.make_key rev40) = some tpFull.process_name
    ∧ tpFull.task_group_index.get (Index.make_key "taskgroup0")
        = some tpFull.process_name
    ∧ (TryPush.delete tpFull).try_commit_index.get (Index.make_key rev40)
        = some tpFull.process_name
    ∧ (TryPush.delete tpFull).task_group_index.get (Index.make_key "taskgroup0")
        = some tpFull.process_name := by
  exact ⟨rfl, rfl, rfl, rfl⟩

/-! ## Event handlers (`handlers.py`)

The handlers' external collaborators — the PR ref fetch, the Sync store,
the downstream/upstream modules — are not part of the provided sources;
they enter as an environment of functions, and the handlers' outward calls
are recorded as an ordered effect list. -/

/-- `SyncDirection` from the model module. -/
inductive Direction
  | upstream
  | downstream
deriving DecidableEq, Repr

/-- A `status` event payload (`{sha, context, status, url}`). -/
structure StatusEvent where
  sha : String
  context : String
  status : String
  url : String
deriving DecidableEq, Repr

/-- Modelled from the spec: the environment of `handle_status` — the
missing collaborators `pr_for_commit`'s ref store (which fetch PR refs),
`is_ancestor` from gitutils, the Sync lookup, and the direction of the
Sync that `downstream.new_wpt_pr` creates. -/
structure StatusEnv where
  pr_for_commit : String → Option String
  is_ancestor : String → String → Bool
  get_sync : String → Option Direction
  new_pr_direction : String → Direction

/-- Outward-visible actions of the status handler. -/
inductive StatusEffect
  | fetchPrRefs (sha : String)
  | logError (msg : String)
  | createSync (pr : String)
  | upstreamStatus (pr context status url : String)
  | downstreamStatus (pr : String)
deriving DecidableEq, Repr

/-- Dispatch of a status change by Sync direction (tail of
`handle_status`). -/
def dispatchStatus (dir : Direction) (pr : String) (e : StatusEvent) :
    List StatusEffect :=
  match dir with
  | Direction.upstream => [StatusEffect.upstreamStatus pr e.context e.status e.url]
  | Direction.downstream => [StatusEffect.downstreamStatus pr]

/-- `handle_status`: ignore the system's own reporting context, locate the
PR for the commit (a fetch), log-and-ignore unknown commits, create a
downstream Sync for unknown PRs, then dispatch by Sync direction. -/
def handle_status (env : StatusEnv) (e : StatusEvent) : List StatusEffect :=
  if e.context = "upstream/gecko" then
    []
  else
    match env.pr_for_commit e.sha with
    | none =>
      StatusEffect.fetchPrRefs e.sha ::
        (if ¬ env.is_ancestor e.sha "origin/master" then
          [StatusEffect.logError ("Got status for commit " ++ e.sha
            ++ ", but that isn't the head of any PR")]
        else
          [])
    | some pr =>
      StatusEffect.fetchPrRefs e.sha ::
        (match env.get_sync pr with
        | none =>
          StatusEffect.createSync pr ::
            dispatchStatus (env.new_pr_direction pr) pr e
        | some dir => dispatchStatus dir pr e)

/-- C5: a status event carrying the system's own reporting context
`upstream/gecko` is dropped before any lookup, Sync creation or dispatch:
the handler produces no effect at all. -/
theorem C5_thm (env : StatusEnv) (e : StatusEvent)
    (h : e.context = "upstream/gecko") :
    handle_status env e = [] := by
  simp [handle_status, h]

/-- C5 witness: a concrete self-reported status event produces no
effects. -/
theorem C5_witness :
    handle_status
      ⟨fun _ => some "7", fun _ _ => true, fun _ => some Direction.downstream,
       fun _ => Direction.downstream⟩
      ⟨"0a1b", "upstream/gecko", "success", "https://ci.example/build/1"⟩ = [] :=
  C5_thm _ _ rfl

/-! ## Claim C9: `handle_pr` -/

/-- A JSON-ish value, enough to carry the webhook payload shapes. -/
inductive JVal
  | str (s : String)
  | num (n : Nat)
  | obj (fields : List (String × JVal))
deriving Repr

/-- Python dictionary access `d[k]`: a missing key raises `KeyError`. -/
def dictGet (d : List (String × JVal)) (k : String) : Except String JVal :=
  match d.lookup k with
  | some v => Except.ok v
  | none => Except.error ("KeyError: " ++ k)

/-- Outward-visible actions of the pull-request handler. -/
inductive PrEffect
  | loadPull (pr : JVal)
  | updateFromGithub (pr : JVal)
  | newWptPr (data : JVal)
deriving Repr

/-- Modelled from the spec: the Sync store consulted by `handle_pr`
(`get_sync` queries Syncs by PR id); the downstream module that would
consume the created Sync is recorded only as an effect. -/
structure PrEnv where
  get_sync : JVal → Option Direction

/-- Python equality of a JSON value against a string literal. -/
def JVal.eqStr (v : JVal) (s : String) : Bool :=
  match v with
  | JVal.str t => t == s
  | _ => false

/-- `handle_pr`: look up the Sync for the event's PR number, cache the PR
metadata, and when no Sync exists and the action is `opened`, create a
downstream Sync — the source passes `event["payload"]` to
`downstream.new_wpt_pr`. -/
def handle_pr (env : PrEnv) (event : List (String × JVal)) :
    Except String (List PrEffect) := do
  let pr_id ← dictGet event "number"
  let sync := env.get_sync pr_id
  let pull ← dictGet event "pull_request"
  let baseEff := [PrEffect.loadPull pull, PrEffect.updateFromGithub pull]
  match sync with
  | none =>
    let action ← dictGet event "action"
    if action.eqStr "opened" then
      let payload ← dictGet event "payload"
      return baseEff ++ [PrEffect.newWptPr payload]
    else
      return baseEff
  | some Direction.upstream => return baseEff
  | some Direction.downstream =>
    let _ ← dictGet event "action"
    return baseEff

/-- The PR metadata object of the example event. -/
def prObj : JVal := JVal.obj [("id", JVal.num 1), ("state", JVal.str "open")]

/-- A `pull_request` event payload in the spec's shape
`{action, number, pull_request}`, with action `opened`. -/
def prEventOpened : List (String × JVal) :=
  [("action", JVal.str "opened"), ("number", JVal.num 1),
   ("pull_request", prObj)]

/-- The same event with a non-`opened` action. -/
def prEventSync : List (String × JVal) :=
  [("action", JVal.str "synchronize"), ("number", JVal.num 1),
   ("pull_request", prObj)]

/-- An environment with no Sync for any PR. -/
def prEnvNone : PrEnv := ⟨fun _ => none⟩

/-- C9: evaluation at the failing input.  On an `opened` event with no
existing Sync the handler reads `event["payload"]`, a key absent from the
spec's `{action, number, pull_request}` payload shape (whose other keys
the same function reads), so it raises KeyError instead of creating the
downstream Sync; for another action it indeed creates nothing. -/
theorem C9_code_bug_eval :
    handle_pr prEnvNone prEventOpened = Except.error "KeyError: payload"
    ∧ handle_pr prEnvNone prEventSync
        = Except.ok [PrEffect.loadPull prObj, PrEffect.updateFromGithub prObj] := by
  exact ⟨rfl, rfl⟩

/-! ## Claim C7: `TryCommit.read_treeherder` -/

/-- The error hierarchy of `errors.py`: an abort reason, optionally
wrapped as retryable. -/
inductive SyncErr
  | abort (msg : String)
  | retryable (wrapped : SyncErr)
deriving DecidableEq, Repr

/-- The literal part of the pattern `revision=(?P<rev>[0-9a-f]{40})`. -/
def revLit : List Char := "revision=".toList

/-- The character class `[0-9a-f]`. -/
def isHexChar (c : Char) : Bool :=
  ('0' ≤ c && c ≤ '9') || ('a' ≤ c && c ≤ 'f')

/-- Match of the whole pattern anchored at the head of `cs`: the literal
`revision=` followed by exactly 40 hex characters, whose capture is
returned. -/
def revMatchAt (cs : List Char) : Option (List Char) :=
  if revLit.isPrefixOf cs then
    if ((cs.drop revLit.length).take 40).length = 40
        && ((cs.drop revLit.length).take 40).all isHexChar then
      some ((cs.drop revLit.length).take 40)
    else
      none
  else none

/-- `re.search` of the pattern: try every start position left to right and
return the first capture. -/
def revSearch : List Char → Option (List Char)
  | [] => none
  | c :: cs =>
    match revMatchAt (c :: cs) with
    | some h => some h
    | none => revSearch cs

/-- Presence of the pattern somewhere in the character list. -/
def HasRevPattern (cs : List Char) : Prop :=
  ∃ pre h post, cs = pre ++ revLit ++ h ++ post ∧ h.length = 40 ∧ h.all isHexChar = true

theorem isPrefixOf_iff_exists {l cs : List Char} :
    l.isPrefixOf cs = true ↔ ∃ t, cs = l ++ t := by
  induction l generalizing cs with
  | nil => simp [List.isPrefixOf]
  | cons a l ih =>
    cases cs with
    | nil => simp [List.isPrefixOf]
    | cons c cs =>
      simp only [List.isPrefixOf, Bool.and_eq_true, beq_iff_eq, ih, List.cons_append,
        List.cons.injEq]
      constructor
      · rintro ⟨h1, t, h2⟩
        exact ⟨t, h1.symm, h2⟩
      · rintro ⟨t, h1, h2⟩
        exact ⟨h1.symm, t, h2⟩

theorem revMatchAt_sound {cs h : List Char} (hm : revMatchAt cs = some h) :
    (∃ post, cs = revLit ++ h ++ post) ∧ h.length = 40 ∧ h.all isHexChar = true := by
  unfold revMatchAt at hm
  split at hm
  · next hpre =>
    split at hm
    · next hcheck =>
      injection hm with hm
      rw [Bool.and_eq_true] at hcheck
      obtain ⟨hlen, hhex⟩ := hcheck
      obtain ⟨t, ht⟩ := isPrefixOf_iff_exists.mp hpre
      subst hm
      subst ht
      have hdrop : (revLit ++ t).drop revLit.length = t := List.drop_left revLit t
      rw [hdrop] at hhex hlen ⊢
      refine ⟨⟨t.drop 40, ?_⟩, of_decide_eq_true hlen, hhex⟩
      rw [List.append_assoc]
      congr 1
      exact (List.take_append_drop 40 t).symm
    · exact Option.noConfusion hm
  · exact Option.noConfusion hm

theorem revMatchAt_complete (h post : List Char) (hlen : h.length = 40)
    (hhex : h.all isHexChar = true) :
    revMatchAt (revLit ++ h ++ post) = some h := by
  have hpre : revLit.isPrefixOf (revLit ++ (h ++ post)) = true :=
    isPrefixOf_iff_exists.mpr ⟨h ++ post, rfl⟩
  have hdrop : (revLit ++ (h ++ post)).drop revLit.length = h ++ post :=
    List.drop_left revLit (h ++ post)
  have htake : (h ++ post).take 40 = h := by
    rw [← hlen]
    exact List.take_left h post
  unfold revMatchAt
  rw [List.append_assoc, if_pos hpre, hdrop, htake]
  simp [hlen, hhex]

theorem revSearch_sound :
    ∀ cs h : List Char, revSearch cs = some h →
      h.length = 40 ∧ h.all isHexChar = true ∧ ∃ pre post, cs = pre ++ revLit ++ h ++ post := by
  intro cs
  induction cs with
  | nil => intro h hm; exact Option.noConfusion hm
  | cons c cs ih =>
    intro h hm
    unfold revSearch at hm
    split at hm
    · next hex hma =>
      injection hm with hm
      subst hm
      obtain ⟨⟨post, hp⟩, hlen, hhex⟩ := revMatchAt_sound hma
      exact ⟨hlen, hhex, [], post, by simpa using hp⟩
    · next hma =>
      obtain ⟨hlen, hhex, pre, post, hp⟩ := ih h hm
      exact ⟨hlen, hhex, c :: pre, post, by simp [hp]⟩

theorem revSearch_isSome_of_matchAt (cs h : List Char)
    (hm : revMatchAt cs = some h) : (revSearch cs).isSome = true := by
  cases cs with
  | nil =>
    have hnone : revMatchAt ([] : List Char) = none := rfl
    rw [hnone] at hm
    exact Option.noConfusion hm
  | cons c cs =>
    simp [revSearch, hm]

theorem revSearch_complete :
    ∀ cs : List Char, HasRevPattern cs → (revSearch cs).isSome = true := by
  intro cs hpat
  obtain ⟨pre, h, post, hcs, hlen, hhex⟩ := hpat
  subst hcs
  induction pre with
  | nil =>
    refine revSearch_isSome_of_matchAt _ h ?_
    have := revMatchAt_complete h post hlen hhex
    simpa using this
  | cons c pre ih =>
    simp only [List.cons_append, revSearch]
    split
    · rfl
    · exact ih

/-- Absence of the pattern forces the search to fail. -/
theorem revSearch_none_of_not_pattern {cs : List Char} (h : ¬ HasRevPattern cs) :
    revSearch cs = none := by
  cases hs : revSearch cs with
  | none => rfl
  | some r =>
    obtain ⟨hlen, hhex, pre, post, hp⟩ := revSearch_sound cs r hs
    exact absurd ⟨pre, r, post, hp, hlen, hhex⟩ h

/-- `read_treeherder(status, output)`: a non-zero push status raises a
retryable error wrapping an abort; otherwise the output is searched for
the revision pattern, with a fall back to the cinnabar git-to-hg
translation of the worktree HEAD, and `None` when even that raises. -/
def read_treeherder (git2hg : String → Except Unit String) (headSha : String)
    (status : Int) (output : String) : Except SyncErr (Option String) :=
  if status ≠ 0 then
    Except.error (SyncErr.retryable (SyncErr.abort "Failed to push to try"))
  else
    match revSearch output.toList with
    | none =>
      match git2hg headSha with
      | Except.ok try_rev => Except.ok (some try_rev)
      | Except.error _ => Except.ok none
    | some rev => Except.ok (some (String.mk rev))

/-- C7: a non-zero exit raises a retryable error wrapping the abort
reason; on a zero exit whose output contains `revision=<40 hex>` the
matched 40-hex capture is returned; when the pattern is absent the
worktree HEAD is translated through the source-control bridge and
returned; and `None` is returned only when that translation also fails. -/
theorem C7_thm (git2hg : String → Except Unit String) (headSha : String)
    (status : Int) (output : String) :
    (status ≠ 0 →
      read_treeherder git2hg headSha status output
        = Except.error (SyncErr.retryable (SyncErr.abort "Failed to push to try")))
    ∧ (status = 0 →
      (HasRevPattern output.toList →
        ∃ r, revSearch output.toList = some r
          ∧ r.length = 40 ∧ r.all isHexChar = true
          ∧ (∃ pre post, output.toList = pre ++ revLit ++ r ++ post)
          ∧ read_treeherder git2hg headSha status output
              = Except.ok (some (String.mk r)))
      ∧ (¬ HasRevPattern output.toList →
        (∀ hgRev, git2hg headSha = Except.ok hgRev →
          read_treeherder git2hg headSha status output = Except.ok (some hgRev))
        ∧ (∀ e, git2hg headSha = Except.error e →
          read_treeherder git2hg headSha status output = Except.ok none))) := by
  constructor
  · intro hnz
    simp [read_treeherder, hnz]
  · intro hz
    subst hz
    constructor
    · intro hpat
      obtain ⟨r, hr⟩ := Option.isSome_iff_exists.mp (revSearch_complete _ hpat)
      obtain ⟨hlen, hhex, pre, post, hp⟩ := revSearch_sound _ r hr
      have hr' : revSearch output.data = some r := hr
      exact ⟨r, hr, hlen, hhex, ⟨pre, post, hp⟩, by simp [read_treeherder, hr']⟩
    · intro hnpat
      have hnone : revSearch output.data = none :=
        revSearch_none_of_not_pattern hnpat
      constructor
      · intro hgRev hok
        simp [read_treeherder, hnone, hok]
      · intro e herr
        simp [read_treeherder, hnone, herr]

/-- Output of a successful submission mentioning a try revision. -/
def outWithRev : String :=
  "remote: View the pushlog for these changes here: revision=0123456789abcdef0123456789abcdef01234567 done"

/-- C7 witness: at a concrete successful push output the 40-hex revision
is extracted, and a concrete failed push raises the retryable abort. -/
theorem C7_witness :
    (∃ r, revSearch outWithRev.toList = some r
      ∧ r.length = 40 ∧ r.all isHexChar = true
      ∧ (∃ pre post, outWithRev.toList = pre ++ revLit ++ r ++ post)
      ∧ read_treeherder (fun _ => Except.error ()) "deadbeef" 0 outWithRev
          = Except.ok (some (String.mk r)))
    ∧ read_treeherder (fun _ => Except.error ()) "deadbeef" 1 outWithRev
        = Except.error (SyncErr.retryable (SyncErr.abort "Failed to push to try")) := by
  constructor
  · refine ((C7_thm (fun _ => Except.error ()) "deadbeef" 0 outWithRev).2 rfl).1 ?_
    refine ⟨"remote: View the pushlog for these changes here: ".toList,
      "0123456789abcdef0123456789abcdef01234567".toList, " done".toList, ?_, by decide, by decide⟩
    decide
  · exact (C7_thm (fun _ => Except.error ()) "deadbeef" 1 outWithRev).1 (by decide)

/-! ## Claim C8: `TryPushTasks.retrigger_failures` -/

/-- Modelled from the spec: the task state constant `tc.FAIL` of the
missing `tc` module. -/
def tcFAIL : String := "failed"

/-- Modelled from the spec: the task state constant `tc.EXCEPTION` of the
missing `tc` module. -/
def tcEXCEPTION : String := "exception"

/-- One entry of `wpt_states()`: a representative task id and the
defaultdict of state counts for a task name. -/
structure TaskStateData where
  task_id : String
  states : List (String × Nat)
deriving DecidableEq, Repr

/-- Defaultdict read of a state count (absent states count 0). -/
def stateCount (states : List (String × Nat)) (k : String) : Nat :=
  match states.lookup k with
  | some n => n
  | none => 0

/-- The `is_failure` predicate of `retrigger_failures`: any FAIL or any
EXCEPTION among the state counts. -/
def is_failure (d : TaskStateData) : Bool :=
  decide (0 < stateCount d.states tcFAIL) || decide (0 < stateCount d.states tcEXCEPTION)

/-- The `is_excluded` predicate of `retrigger_failures`. -/
def is_excluded (name : String) : Bool :=
  strContains name "-aarch64"

/-- Count of jobs created by one retrigger call: `if jobs:` guards the
accumulation, where the client may return `None` or a list. -/
def jobsCount : Option (List String) → Nat
  | some l => if l.isEmpty then 0 else l.length
  | none => 0

/-- `retrigger_failures(count)`: select the task ids of the failing,
non-excluded names, issue one retrigger request of `count` runs per id
(returned as the request list), and total the jobs created. -/
def retrigger_failures (retrigger : String → Nat → Option (List String))
    (task_states : List (String × TaskStateData)) (count : Nat) :
    List (String × Nat) × Nat :=
  let failures := (task_states.filter
      (fun p => is_failure p.2 && !is_excluded p.1)).map (fun p => p.2.task_id)
  failures.foldl
    (fun acc task_id =>
      (acc.1 ++ [(task_id, count)], acc.2 + jobsCount (retrigger task_id count)))
    ([], 0)

theorem retrigger_foldl_characterisation
    (retrigger : String → Nat → Option (List String)) (count : Nat) :
    ∀ (ids : List String) (acc : List (String × Nat)) (n : Nat),
      ids.foldl
        (fun acc task_id =>
          (acc.1 ++ [(task_id, count)], acc.2 + jobsCount (retrigger task_id count)))
        (acc, n)
      = (acc ++ ids.map (fun task_id => (task_id, count)),
         n + (ids.map (fun task_id => jobsCount (retrigger task_id count))).sum) := by
  intro ids
  induction ids with
  | nil => intro acc n; simp
  | cons i ids ih =>
    intro acc n
    simp only [List.foldl_cons, List.map_cons, List.sum_cons]
    rw [ih]
    simp [Nat.add_assoc]

/-- The task set of the spec's scenario: two failing names, one of which
contains `-aarch64`. -/
def twoFailures : List (String × TaskStateData) :=
  [("test-linux64/opt-web-platform-tests-e10s-1",
    ⟨"task-a", [("completed", 4), ("failed", 2)]⟩),
   ("test-linux64-aarch64/opt-web-platform-tests-e10s-2",
    ⟨"task-b", [("failed", 1)]⟩)]

/-- C8: the requests issued by `retrigger_failures` are exactly one
retrigger of `count` runs per task name whose state counts contain at
least one FAIL or at least one EXCEPTION and whose name does not contain
`-aarch64`; the returned number is the sum of the jobs successfully
created across those requests; and on the concrete set with two failing
names, one containing `-aarch64`, exactly one request is issued. -/
theorem C8_thm :
    (∀ (retrigger : String → Nat → Option (List String))
        (task_states : List (String × TaskStateData)) (count : Nat),
      (retrigger_failures retrigger task_states count).1
        = (task_states.filter
            (fun p => (decide (0 < stateCount p.2.states tcFAIL)
                || decide (0 < stateCount p.2.states tcEXCEPTION))
              && !strContains p.1 "-aarch64")).map
            (fun p => (p.2.task_id, count))
      ∧ (retrigger_failures retrigger task_states count).2
        = ((task_states.filter
            (fun p => (decide (0 < stateCount p.2.states tcFAIL)
                || decide (0 < stateCount p.2.states tcEXCEPTION))
              && !strContains p.1 "-aarch64")).map
            (fun p => jobsCount (retrigger p.2.task_id count))).sum)
    ∧ (∀ (retrigger : String → Nat → Option (List String)) (count : Nat),
      (retrigger_failures retrigger twoFailures count).1
        = [("task-a", count)]) := by
  constructor
  · intro retrigger task_states count
    unfold retrigger_failures
    rw [retrigger_foldl_characterisation]
    constructor
    · simp [is_failure, is_excluded]
    · simp [is_failure, is_excluded, List.map_map]
      rfl
  · intro retrigger count
    unfold retrigger_failures
    rw [retrigger_foldl_characterisation]
    simp
    rfl

/-! ## Claim C6: `TryFuzzyCommit._push` argument assembly -/

/-- Configuration of a fuzzy try submission (`TryFuzzyCommit`). -/
structure FuzzyParams where
  queries : List String
  rebuild : Nat
  full : Bool
  disable_target_task_filter : Bool
  artifact : Bool
deriving DecidableEq, Repr

/-- One step of the path-collection loop of `_push`: the state is the
collected `paths` and the `all_paths` seen-set; an item is appended when
unseen and existing on disk, and is always added to the seen-set. -/
def pathStep (fe : String → Bool) (st : List String × List String)
    (item : String) : List String × List String :=
  (if item ∉ st.2 ∧ fe item = true then st.1 ++ [item] else st.1,
   item :: st.2)

/-- The nested path-collection loop of `_push` over the value lists of
`tests_by_type`. -/
def pathsLoop (fe : String → Bool) (valuesList : List (List String)) :
    List String :=
  (valuesList.foldl (fun st values => values.foldl (pathStep fe) st)
    (([], []) : List String × List String)).1

/-- Order-preserving first-occurrence deduplication relative to an
already-seen set. -/
def dedupFrom (seen : List String) : List String → List String
  | [] => []
  | x :: xs =>
    if x ∈ seen then dedupFrom seen xs
    else x :: dedupFrom (x :: seen) xs

/-- The declarative candidate list: first occurrences of the concatenated
test lists, restricted to paths that exist. -/
def candidatePaths (fe : String → Bool) (valuesList : List (List String)) :
    List String :=
  (dedupFrom [] (concatAll valuesList)).filter fe

/-- The `max-tests` cap of `_push`: applied only when the configured value
is present and truthy and the candidate list is longer. -/
def capPaths (maxTests : Option Nat) (paths : List String) : List String :=
  match maxTests with
  | some m => if m ≠ 0 ∧ m < paths.length then paths.take m else paths
  | none => paths

/-- The declarative `-q <query>` flag list. -/
def qFlags : List String → List String
  | [] => []
  | q :: qs => "-q" :: q :: qFlags qs

/-- The argv assembled by `TryFuzzyCommit._push` for the submission tool
(after `fuzzy --help` has been consulted for `--route` support). -/
def tryFuzzyPushArgs (p : FuzzyParams) (helpText : String)
    (fe : String → Bool) (tests_by_type : Option (List (String × List String)))
    (maxTests : Option Nat) : List String :=
  let query_args := p.queries.foldl (fun acc q => acc ++ ["-q", q]) []
  let can_push_routes := strContains helpText "--route "
  let args := ["fuzzy"] ++ query_args
  let args := if p.rebuild ≠ 0 then args ++ ["--rebuild", toString p.rebuild] else args
  let args := if p.full then args ++ ["--full"] else args
  let args := if p.disable_target_task_filter then
      args ++ ["--disable-target-task-filter"]
    else args
  let args := if can_push_routes then
      args ++ ["--route=notify.pulse.wptsync.try-task.on-any"]
    else args
  let args := if p.artifact then args ++ ["--artifact"] else args ++ ["--no-artifact"]
  match tests_by_type with
  | none => args
  | some tbt => args ++ capPaths maxTests (pathsLoop fe (tbt.map (fun kv => kv.2)))

theorem queryArgs_foldl :
    ∀ (qs acc : List String),
      qs.foldl (fun a q => a ++ ["-q", q]) acc = acc ++ qFlags qs := by
  intro qs
  induction qs with
  | nil => intro acc; simp [qFlags]
  | cons q qs ih =>
    intro acc
    rw [List.foldl_cons, ih]
    simp [qFlags]

theorem dedupFrom_congr :
    ∀ (l a b : List String), (∀ y, y ∈ a ↔ y ∈ b) →
      dedupFrom a l = dedupFrom b l := by
  intro l
  induction l with
  | nil => intro a b _; rfl
  | cons x xs ih =>
    intro a b h
    simp only [dedupFrom]
    by_cases hx : x ∈ a
    · rw [if_pos hx, if_pos ((h x).mp hx)]
      exact ih a b h
    · rw [if_neg hx, if_neg (fun hb => hx ((h x).mpr hb))]
      rw [ih (x :: a) (x :: b) (fun y => by simp [List.mem_cons, h y])]

theorem foldl_concatAll {σ : Type} (g : σ → String → σ) :
    ∀ (ls : List (List String)) (st : σ),
      ls.foldl (fun st values => values.foldl g st) st
        = (concatAll ls).foldl g st := by
  intro ls
  induction ls with
  | nil => intro st; rfl
  | cons l ls ih =>
    intro st
    rw [List.foldl_cons, ih]
    show (concatAll ls).foldl g (l.foldl g st) = (concatAll (l :: ls)).foldl g st
    rw [show concatAll (l :: ls) = l ++ concatAll ls from rfl, List.foldl_append]

theorem pathsFold_eq (fe : String → Bool) :
    ∀ (l paths seen : List String),
      (l.foldl (pathStep fe) (paths, seen)).1
        = paths ++ (dedupFrom seen l).filter fe := by
  intro l
  induction l with
  | nil => intro paths seen; simp [dedupFrom]
  | cons x xs ih =>
    intro paths seen
    rw [List.foldl_cons]
    have hstep : pathStep fe (paths, seen) x
        = (if x ∉ seen ∧ fe x = true then paths ++ [x] else paths, x :: seen) := rfl
    rw [hstep]
    by_cases hc : x ∈ seen
    · rw [if_neg (fun h => h.1 hc), ih]
      have hseen : dedupFrom (x :: seen) xs = dedupFrom seen xs := by
        refine dedupFrom_congr xs (x :: seen) seen (fun y => ?_)
        constructor
        · intro hy
          rcases List.mem_cons.mp hy with h1 | h1
          · subst h1; exact hc
          · exact h1
        · exact fun hy => List.mem_cons_of_mem x hy
      have hdd : dedupFrom seen (x :: xs) = dedupFrom seen xs := by
        simp only [dedupFrom]
        rw [if_pos hc]
      rw [hseen, hdd]
    · by_cases hf : fe x = true
      · rw [if_pos ⟨hc, hf⟩, ih]
        have hdd : dedupFrom seen (x :: xs) = x :: dedupFrom (x :: seen) xs := by
          simp only [dedupFrom]
          rw [if_neg hc]
        simp [hdd, List.filter_cons, hf, List.append_assoc]
      · rw [if_neg (fun h => hf h.2), ih]
        have hdd : dedupFrom seen (x :: xs) = x :: dedupFrom (x :: seen) xs := by
          simp only [dedupFrom]
          rw [if_neg hc]
        have hf' : fe x = false := by
          cases hx : fe x
          · rfl
          · exact absurd hx hf
        simp [hdd, List.filter_cons, hf']

theorem pathsLoop_eq (fe : String → Bool) (valuesList : List (List String)) :
    pathsLoop fe valuesList = candidatePaths fe valuesList := by
  unfold pathsLoop candidatePaths
  rw [foldl_concatAll (pathStep fe)]
  have := pathsFold_eq fe (concatAll valuesList) [] []
  simpa using this

/-- C6: the fuzzy submission argv is, in order, `fuzzy`, one `-q <query>`
pair per query, `--rebuild <n>` iff the rebuild count is non-zero,
`--full` iff full, `--disable-target-task-filter` iff that flag, the
notification route iff the help text advertises `--route`, `--artifact`
or `--no-artifact`, then the deduplicated existing test paths capped by
`max-tests`; and when the cap is set and exceeded exactly the first
`max-tests` candidate paths are kept, in their original order. -/
theorem C6_thm (p : FuzzyParams) (helpText : String) (fe : String → Bool)
    (tbt : List (String × List String)) (maxTests : Option Nat) :
    tryFuzzyPushArgs p helpText fe (some tbt) maxTests
      = ["fuzzy"] ++ qFlags p.queries
        ++ (if p.rebuild ≠ 0 then ["--rebuild", toString p.rebuild] else [])
        ++ (if p.full then ["--full"] else [])
        ++ (if p.disable_target_task_filter then ["--disable-target-task-filter"] else [])
        ++ (if strContains helpText "--route " then
              ["--route=notify.pulse.wptsync.try-task.on-any"] else [])
        ++ (if p.artifact then ["--artifact"] else ["--no-artifact"])
        ++ capPaths maxTests (candidatePaths fe (tbt.map (fun kv => kv.2)))
    ∧ (∀ m, maxTests = some m → 0 < m →
        m < (candidatePaths fe (tbt.map (fun kv => kv.2))).length →
        capPaths maxTests (candidatePaths fe (tbt.map (fun kv => kv.2)))
          = (candidatePaths fe (tbt.map (fun kv => kv.2))).take m) := by
  constructor
  · obtain ⟨qs, rb, fl, dt, ar⟩ := p
    simp only [tryFuzzyPushArgs]
    rw [queryArgs_foldl]
    by_cases hr : rb ≠ 0 <;>
      cases fl <;> cases dt <;> cases ar <;>
        by_cases hroute : strContains helpText "--route " = true <;>
          simp [hr, hroute, pathsLoop_eq, List.append_assoc]
  · intro m hm hpos hlen
    subst hm
    have hcond : m ≠ 0 ∧ m < (candidatePaths fe (tbt.map (fun kv => kv.2))).length :=
      ⟨Nat.pos_iff_ne_zero.mp hpos, hlen⟩
    simp [capPaths, hcond]

/-- The fuzzy parameters of the stability scenario (`rebuild=5`). -/
def fuzzyP : FuzzyParams :=
  ⟨["web-platform-tests !macosx !shippable !asan !fis"], 5, false, false, true⟩

/-- Ten candidate test paths under one test type. -/
def tbtTen : List (String × List String) :=
  [("testharness",
    ["p1", "p2", "p3", "p4", "p5", "p6", "p7", "p8", "p9", "p10"])]

/-- An existence check accepting every path. -/
def feAll : String → Bool := fun _ => true

/-- C6 witness: with `max-tests=3` and ten candidate paths the appended
path list is exactly the first three candidates in order, and the full
argv of the stability push contains `--rebuild 5` at its assembled
position. -/
theorem C6_witness :
    capPaths (some 3) (candidatePaths feAll (tbtTen.map (fun kv => kv.2)))
      = (candidatePaths feAll (tbtTen.map (fun kv => kv.2))).take 3
    ∧ tryFuzzyPushArgs fuzzyP "no route support here" feAll (some tbtTen) (some 3)
      = ["fuzzy", "-q", "web-platform-tests !macosx !shippable !asan !fis",
         "--rebuild", "5", "--artifact", "p1", "p2", "p3"] := by
  constructor
  · exact (C6_thm fuzzyP "no route support here" feAll tbtTen (some 3)).2 3 rfl
      (by decide) (by decide)
  · rw [(C6_thm fuzzyP "no route support here" feAll tbtTen (some 3)).1]
    rfl
